import Mathlib

/-!
Verification development for the urban_tool planning-project module.

The definitions below are a shallow embedding of the Blitz.js resolvers in
`app/planningProjects/` (mutations `createPlanningProject`,
`updatePlanningProject`, `deletePlanningProject`; queries
`getPlanningProject`, `getPlanningProjects`), of the dashboard list
component `app/components/planning_project_list.tsx`, and of the Prisma
data model from the `add_planning_projects` migration.  The database is a
list of `PlanningProject` rows; Prisma calls (`findFirst`, `findMany`,
`create`, `update`, `delete`) are embedded as list operations; a thrown
`Error(msg)` becomes `Except.error (Err.thrown msg)`; a zod schema
rejection becomes `Except.error Err.zodError` (mutations additionally
return the database so that "no write happened" is expressible).
-/

namespace UrbanTool

/-- Enum `PlanningProjectType` from the migration (12 values). -/
inductive PlanningProjectType where
  | COMPREHENSIVE_PLAN
  | BIKE_PLAN
  | PEDESTRIAN_PLAN
  | WALKABILITY_STUDY
  | TRANSIT_RIDERSHIP_FORECAST
  | SS4A_SAFETY_PLAN
  | FOOD_DESERT_ANALYSIS
  | COMMUNITY_HEALTH_PLAN
  | NEIGHBORHOOD_PLAN
  | ROAD_DIET_ANALYSIS
  | ROADWAY_REMOVAL_FOR_PARKS
  | CUSTOM
deriving DecidableEq, Repr

/-- Enum `PlanningProjectStatus` from the migration (6 values). -/
inductive PlanningProjectStatus where
  | DRAFT
  | SCOPING
  | IN_PROGRESS
  | REVIEW
  | COMPLETE
  | ARCHIVED
deriving DecidableEq, Repr

/-- Row of the `PlanningProject` table (migration in the repository).
`config` and `conversationHistory` are nullable JSONB columns, modelled as
optional opaque payload strings. -/
structure PlanningProject where
  id : String
  name : String
  description : String
  type : PlanningProjectType
  status : PlanningProjectStatus
  organizationId : Int
  createdById : Option Int
  config : Option String
  conversationHistory : Option String
  createdAt : Nat
  updatedAt : Nat
deriving DecidableEq, Repr

/-- The database state relevant to the resolvers: the `PlanningProject`
table. -/
structure DB where
  projects : List PlanningProject
deriving DecidableEq, Repr

/-- `id` is the primary key, so rows never share an id. -/
def DB.wf (db : DB) : Prop :=
  (db.projects.map (·.id)).Nodup

/-- Blitz session context.  `resolver.authorize()` has already ensured a
logged-in session (the resolvers run after it), so `userId` is present;
`ctx.session.orgId` can be `undefined` in TypeScript, hence `Option`. -/
structure Ctx where
  userId : Int
  orgId : Option Int
deriving DecidableEq, Repr

/-- Failure of a resolver: `zodError` is a rejection by the
`resolver.zod(...)` input-validation stage; `thrown msg` is a
`throw new Error(msg)` inside the handler. -/
inductive Err where
  | zodError
  | thrown (msg : String)
deriving DecidableEq, Repr

/-- JavaScript truthiness of `ctx.session.orgId` (an optional integer):
`undefined` and `0` are falsy.  Embeds the `if (!ctx.session.orgId)`
checks. -/
def intTruthy : Option Int → Bool
  | none => false
  | some n => n != 0

/-- JavaScript `s || d` for an optional string `s`: `undefined` and the
empty string are falsy and yield the default. -/
def jsOrString (s : Option String) (d : String) : String :=
  match s with
  | none => d
  | some v => if v == "" then d else v

/-- Hex digit, as accepted by zod's uuid format check. -/
def isHexDigit (c : Char) : Bool :=
  c.isDigit || ('a' ≤ c && c ≤ 'f') || ('A' ≤ c && c ≤ 'F')

/-- Embeds `z.string().uuid()`: the canonical 36-character hyphenated
hexadecimal UUID shape. -/
def isUuid (s : String) : Bool :=
  let cs := s.toList
  cs.length == 36 &&
    cs.enum.all fun ic =>
      if ic.1 == 8 || ic.1 == 13 || ic.1 == 18 || ic.1 == 23 then
        ic.2 == '-'
      else isHexDigit ic.2

/-- Embeds `z.nativeEnum(PlanningProjectType)` on a raw string value. -/
def PlanningProjectType.parse? : String → Option PlanningProjectType
  | "COMPREHENSIVE_PLAN" => some .COMPREHENSIVE_PLAN
  | "BIKE_PLAN" => some .BIKE_PLAN
  | "PEDESTRIAN_PLAN" => some .PEDESTRIAN_PLAN
  | "WALKABILITY_STUDY" => some .WALKABILITY_STUDY
  | "TRANSIT_RIDERSHIP_FORECAST" => some .TRANSIT_RIDERSHIP_FORECAST
  | "SS4A_SAFETY_PLAN" => some .SS4A_SAFETY_PLAN
  | "FOOD_DESERT_ANALYSIS" => some .FOOD_DESERT_ANALYSIS
  | "COMMUNITY_HEALTH_PLAN" => some .COMMUNITY_HEALTH_PLAN
  | "NEIGHBORHOOD_PLAN" => some .NEIGHBORHOOD_PLAN
  | "ROAD_DIET_ANALYSIS" => some .ROAD_DIET_ANALYSIS
  | "ROADWAY_REMOVAL_FOR_PARKS" => some .ROADWAY_REMOVAL_FOR_PARKS
  | "CUSTOM" => some .CUSTOM
  | _ => none

/-- Embeds `z.nativeEnum(PlanningProjectStatus)` on a raw string value. -/
def PlanningProjectStatus.parse? : String → Option PlanningProjectStatus
  | "DRAFT" => some .DRAFT
  | "SCOPING" => some .SCOPING
  | "IN_PROGRESS" => some .IN_PROGRESS
  | "REVIEW" => some .REVIEW
  | "COMPLETE" => some .COMPLETE
  | "ARCHIVED" => some .ARCHIVED
  | _ => none

/-- Lifts a field parser over an optional (zod `.optional()`) raw field:
absent passes as absent, present must parse. -/
def parseOptField {α : Type} (f : String → Option α) :
    Option String → Option (Option α)
  | none => some none
  | some s => (f s).map some

/-- Raw (pre-validation) argument object of `createPlanningProject`;
`CreatePlanningProjectSchema` has exactly the three optional fields
`name`, `description`, `type` — in particular no `status` field. -/
structure CreateRawInput where
  name : Option String
  description : Option String
  type : Option String
deriving DecidableEq, Repr

/-- Parsed arguments of `createPlanningProject`. -/
structure CreateInput where
  name : Option String
  description : Option String
  type : Option PlanningProjectType
deriving DecidableEq, Repr

/-- Embeds `resolver.zod(CreatePlanningProjectSchema)`:
`name`/`description` are optional strings, `type` an optional
`z.nativeEnum(PlanningProjectType)`. -/
def CreatePlanningProjectSchema (raw : CreateRawInput) : Option CreateInput :=
  (parseOptField PlanningProjectType.parse? raw.type).map fun t =>
    { name := raw.name, description := raw.description, type := t }

/-- Raw argument object of `updatePlanningProject`. -/
structure UpdateRawInput where
  id : String
  name : Option String
  description : Option String
  type : Option String
  status : Option String
  config : Option String
  conversationHistory : Option String
deriving DecidableEq, Repr

/-- Parsed arguments of `updatePlanningProject`; optional fields absent
from the call stay absent (`z.any().optional()` payloads are kept
opaque). -/
structure UpdateInput where
  id : String
  name : Option String
  description : Option String
  type : Option PlanningProjectType
  status : Option PlanningProjectStatus
  config : Option String
  conversationHistory : Option String
deriving DecidableEq, Repr

/-- Embeds `resolver.zod(UpdatePlanningProjectSchema)`: `id` must be a
UUID, `type`/`status` optional native enums, the rest optional. -/
def UpdatePlanningProjectSchema (raw : UpdateRawInput) : Option UpdateInput :=
  if isUuid raw.id then
    match parseOptField PlanningProjectType.parse? raw.type,
        parseOptField PlanningProjectStatus.parse? raw.status with
    | some t, some s =>
        some { id := raw.id, name := raw.name, description := raw.description,
               type := t, status := s, config := raw.config,
               conversationHistory := raw.conversationHistory }
    | _, _ => none
  else none

/-- Raw argument object of `deletePlanningProject` and
`getPlanningProject` (`{ id }`). -/
structure IdRawInput where
  id : String
deriving DecidableEq, Repr

/-- Embeds `resolver.zod(DeletePlanningProjectSchema)` and
`resolver.zod(GetPlanningProjectSchema)` (`id: z.string().uuid()`). -/
def IdSchema (raw : IdRawInput) : Option IdRawInput :=
  if isUuid raw.id then some raw else none

/-- Raw argument object of `getPlanningProjects`
(`status: z.nativeEnum(PlanningProjectStatus).optional()`). -/
structure GetManyRawInput where
  status : Option String
deriving DecidableEq, Repr

/-- Parsed arguments of `getPlanningProjects`. -/
structure GetManyInput where
  status : Option PlanningProjectStatus
deriving DecidableEq, Repr

/-- Embeds `resolver.zod(GetPlanningProjectsSchema)`. -/
def GetPlanningProjectsSchema (raw : GetManyRawInput) : Option GetManyInput :=
  (parseOptField PlanningProjectStatus.parse? raw.status).map fun s =>
    { status := s }

/-- Prisma `findFirst({ where: { id } })`: first row with that id. -/
def DB.findById (db : DB) (id : String) : Option PlanningProject :=
  db.projects.find? (fun p => p.id == id)

/-- A Prisma `where` filter value that may be `undefined`: Prisma drops an
`undefined` filter entirely, so `none` matches every row. -/
def optIntFilter : Option Int → Int → Bool
  | none, _ => true
  | some o, v => o == v

/-- The spread `...(status ? { status } : {})` of `getPlanningProjects`:
no filter when absent (enum strings are always truthy when present). -/
def statusMatch : Option PlanningProjectStatus → PlanningProjectStatus → Bool
  | none, _ => true
  | some s, t => s == t

/-- The row built by `db.planningProject.create` in `createPlanningProject`:
`name || "Untitled Planning Project"`, `description || ""`,
`type || PlanningProjectType.CUSTOM`, status always `DRAFT`,
`organizationId: ctx.session.orgId`, `createdById: ctx.session.userId`.
`newId` stands for the database-generated `gen_random_uuid()`, `now` for
the row timestamps. -/
def newPlanningProject (input : CreateInput) (orgId : Int) (userId : Int)
    (newId : String) (now : Nat) : PlanningProject :=
  { id := newId
    name := jsOrString input.name "Untitled Planning Project"
    description := jsOrString input.description ""
    type := input.type.getD PlanningProjectType.CUSTOM
    status := PlanningProjectStatus.DRAFT
    organizationId := orgId
    createdById := some userId
    config := none
    conversationHistory := none
    createdAt := now
    updatedAt := now }

/-- Handler of `createPlanningProject` (after `resolver.zod` and
`resolver.authorize()`): throws `"No organization found"` when
`!ctx.session.orgId`, otherwise inserts the new row and returns it. -/
def createPlanningProjectHandler (input : CreateInput) (ctx : Ctx)
    (newId : String) (now : Nat) (db : DB) :
    DB × Except Err PlanningProject :=
  if !intTruthy ctx.orgId then
    (db, .error (.thrown "No organization found"))
  else
    let p := newPlanningProject input (ctx.orgId.getD 0) ctx.userId newId now
    ({ projects := db.projects ++ [p] }, .ok p)

/-- Full `createPlanningProject` resolver pipeline: zod validation, then
the handler.  A schema rejection performs no database operation. -/
def createPlanningProject (raw : CreateRawInput) (ctx : Ctx)
    (newId : String) (now : Nat) (db : DB) :
    DB × Except Err PlanningProject :=
  match CreatePlanningProjectSchema raw with
  | none => (db, .error .zodError)
  | some input => createPlanningProjectHandler input ctx newId now db

/-- Prisma `update({ where: { id }, data })` applied to one row: exactly
the fields present in `data` are written (Prisma ignores absent fields);
the `@updatedAt` column is stamped with the write time. -/
def applyUpdate (p : PlanningProject) (input : UpdateInput) (now : Nat) :
    PlanningProject :=
  { p with
    name := input.name.getD p.name
    description := input.description.getD p.description
    type := input.type.getD p.type
    status := input.status.getD p.status
    config := match input.config with
      | none => p.config
      | some c => some c
    conversationHistory := match input.conversationHistory with
      | none => p.conversationHistory
      | some c => some c
    updatedAt := now }

/-- Handler of `updatePlanningProject`: `findFirst({ where: { id } })`;
missing row throws `"Planning project not found"`; a row of another
organization (`project.organizationId !== ctx.session.orgId`, a strict
comparison against the possibly-undefined session org) throws
`"Not authorized to update this project"`; otherwise the single row is
updated and returned. -/
def updatePlanningProjectHandler (input : UpdateInput) (ctx : Ctx)
    (now : Nat) (db : DB) : DB × Except Err PlanningProject :=
  match db.findById input.id with
  | none => (db, .error (.thrown "Planning project not found"))
  | some project =>
    if some project.organizationId != ctx.orgId then
      (db, .error (.thrown "Not authorized to update this project"))
    else
      ({ projects := db.projects.map fun p =>
          if p.id == input.id then applyUpdate p input now else p },
       .ok (applyUpdate project input now))

/-- Full `updatePlanningProject` resolver pipeline. -/
def updatePlanningProject (raw : UpdateRawInput) (ctx : Ctx) (now : Nat)
    (db : DB) : DB × Except Err PlanningProject :=
  match UpdatePlanningProjectSchema raw with
  | none => (db, .error .zodError)
  | some input => updatePlanningProjectHandler input ctx now db

/-- Handler of `deletePlanningProject`: same lookup and organization check
as the update (with message `"Not authorized to delete this project"`),
then `delete({ where: { id } })` and `{ success: true }`. -/
def deletePlanningProjectHandler (input : IdRawInput) (ctx : Ctx)
    (db : DB) : DB × Except Err Bool :=
  match db.findById input.id with
  | none => (db, .error (.thrown "Planning project not found"))
  | some project =>
    if some project.organizationId != ctx.orgId then
      (db, .error (.thrown "Not authorized to delete this project"))
    else
      ({ projects := db.projects.filter fun p => !(p.id == input.id) },
       .ok true)

/-- Full `deletePlanningProject` resolver pipeline. -/
def deletePlanningProject (raw : IdRawInput) (ctx : Ctx) (db : DB) :
    DB × Except Err Bool :=
  match IdSchema raw with
  | none => (db, .error .zodError)
  | some input => deletePlanningProjectHandler input ctx db

/-- Handler of the `getPlanningProject` query:
`findFirst({ where: { id, organizationId: ctx.session.orgId! } })` — the
TypeScript `!` only silences the type checker, so an undefined org makes
Prisma drop that filter — and a missing match throws
`"Planning project not found"`. -/
def getPlanningProjectHandler (input : IdRawInput) (ctx : Ctx) (db : DB) :
    Except Err PlanningProject :=
  match db.projects.find? (fun p =>
      p.id == input.id && optIntFilter ctx.orgId p.organizationId) with
  | none => .error (.thrown "Planning project not found")
  | some p => .ok p

/-- Full `getPlanningProject` query pipeline. -/
def getPlanningProject (raw : IdRawInput) (ctx : Ctx) (db : DB) :
    Except Err PlanningProject :=
  match IdSchema raw with
  | none => .error .zodError
  | some input => getPlanningProjectHandler input ctx db

/-- Insertion step of `orderBy: { updatedAt: "desc" }`. -/
def insertDesc (p : PlanningProject) :
    List PlanningProject → List PlanningProject
  | [] => [p]
  | q :: rest =>
    if q.updatedAt < p.updatedAt then p :: q :: rest
    else q :: insertDesc p rest

/-- Embeds Prisma's `orderBy: { updatedAt: "desc" }` as an insertion sort
descending on `updatedAt`. -/
def sortByUpdatedAtDesc : List PlanningProject → List PlanningProject
  | [] => []
  | p :: rest => insertDesc p (sortByUpdatedAtDesc rest)

/-- Handler of the `getPlanningProjects` query: throws
`"No organization found"` when `!ctx.session.orgId`, otherwise
`findMany` filtered by the session organization and the optional status,
ordered by `updatedAt` descending. -/
def getPlanningProjectsHandler (input : GetManyInput) (ctx : Ctx)
    (db : DB) : Except Err (List PlanningProject) :=
  if !intTruthy ctx.orgId then
    .error (.thrown "No organization found")
  else
    .ok (sortByUpdatedAtDesc (db.projects.filter fun p =>
      optIntFilter ctx.orgId p.organizationId && statusMatch input.status p.status))

/-- Full `getPlanningProjects` query pipeline. -/
def getPlanningProjects (raw : GetManyRawInput) (ctx : Ctx) (db : DB) :
    Except Err (List PlanningProject) :=
  match GetPlanningProjectsSchema raw with
  | none => .error .zodError
  | some input => getPlanningProjectsHandler input ctx db

/-- A `react-hot-toast` notification emitted by the list component. -/
inductive Toast where
  | success (msg : String)
  | failure (msg : String)
deriving DecidableEq, Repr

/-- Observable effects of one run of `handleDelete` in
`planning_project_list.tsx`: the toasts shown and whether
`invalidateQuery(getPlanningProjects, {})` completed (refreshing the
list). -/
structure UiEffects where
  toasts : List Toast
  listRefreshed : Bool
deriving DecidableEq, Repr

/-- Embeds `PlanningProjectList.handleDelete`.  `confirmed` is the result
of the `confirm(...)` prompt; `deleteResult` the settled promise of the
`deletePlanningProject` mutation; `refreshResult` that of
`invalidateQuery`.  The whole body after the prompt sits in a
`try`/`catch` whose `catch` shows the failure toast, so the function
returns `.ok` effects for every input — an unhandled exception would be an
`.error` result, which no branch produces. -/
def handleDelete (confirmed : Bool) (deleteResult : Except Err Unit)
    (refreshResult : Except Err Unit) : Except Err UiEffects :=
  if !confirmed then
    .ok { toasts := [], listRefreshed := false }
  else
    match deleteResult with
    | .error _ =>
      .ok { toasts := [.failure "Failed to delete planning project"],
            listRefreshed := false }
    | .ok _ =>
      match refreshResult with
      | .error _ =>
        .ok { toasts := [.failure "Failed to delete planning project"],
              listRefreshed := false }
      | .ok _ =>
        .ok { toasts := [.success "Planning project deleted"],
              listRefreshed := true }

/-- Modelled from the spec: the Replicache push endpoint
(`pages/api/replicache-push.ts`) is not among the provided sources; §4.3
describes it: per-client applied-mutation bookkeeping, version stamping,
and the idempotent skip "a mutation id already recorded as applied for
that client is skipped and reported `alreadyApplied`, never reapplied".
A mutation as received by the endpoint. -/
structure SrvMutation where
  id : Nat
  name : String
  args : String
deriving DecidableEq, Repr

/-- Modelled from the spec: per-mutation result of the push endpoint
(§4.3 lists `ok | alreadyApplied | validationError | conflict`; only the
first two matter for idempotence). -/
inductive PushResult where
  | ok
  | alreadyApplied
deriving DecidableEq, Repr

/-- Modelled from the spec: server state of one Document at the push
endpoint — the document value, its version counter, and the set of
(clientId, mutationId) pairs recorded as applied. -/
structure PushServer (σ : Type) where
  doc : σ
  version : Nat
  applied : List (Nat × Nat)
deriving Repr

/-- Modelled from the spec: the push endpoint's treatment of one received
mutation.  `applyFn` is the mutation dispatcher (§4.1).  An id already
recorded for the client is skipped (`alreadyApplied`, state untouched);
otherwise the dispatcher runs, the version advances, and the id is
recorded. -/
def processMutation {σ : Type} (applyFn : σ → SrvMutation → σ)
    (st : PushServer σ) (clientId : Nat) (m : SrvMutation) :
    PushServer σ × PushResult :=
  if (clientId, m.id) ∈ st.applied then
    (st, .alreadyApplied)
  else
    ({ doc := applyFn st.doc m, version := st.version + 1,
       applied := (clientId, m.id) :: st.applied }, .ok)

/-- Modelled from the spec: a batch of mutations applied strictly in
submission order (§4.3), collecting per-mutation results. -/
def processBatch {σ : Type} (applyFn : σ → SrvMutation → σ)
    (st : PushServer σ) (clientId : Nat) :
    List SrvMutation → PushServer σ × List PushResult
  | [] => (st, [])
  | m :: ms =>
    let step := processMutation applyFn st clientId m
    let rest := processBatch applyFn step.1 clientId ms
    (rest.1, step.2 :: rest.2)

/-- Lexicographic order on order keys (lists of digit values), matching
string comparison of the corresponding digit strings. -/
def keyLt (a b : List Nat) : Prop :=
  List.Lex (· < ·) a b

/-- Fractional-index key invariant: a key never ends in the zero digit
(such a key would have no room below it, e.g. nothing lies between "1"
and "10"). -/
def noTrailingZero (k : List Nat) : Prop :=
  k.getLast? ≠ some 0

/-- Modelled from the spec: the fractional-indexing midpoint against an
open upper boundary.  The sequencer itself (the `fractional-indexing`
library's `generateKeyBetween`/`midpoint`) is not among the provided
sources; §4.6 specifies `generateBetween(a, b) -> k` with `a < k < b`
under string comparison, given adjacent keys or one open boundary.  Keys
are base-10 digit lists; an exhausted key reads as trailing zeros; `base`
is 10. -/
def midpointNone : List Nat → List Nat
  | [] => [5]
  | x :: as =>
    if 10 - x > 1 then [(x + 10 + 1) / 2]
    else x :: midpointNone as

/-- Modelled from the spec: the fractional-indexing midpoint between key
`a` and a finite upper key `b` (see `midpointNone`).  Shared leading
digits are kept; on the first differing digit, a digit strictly between
is taken when one exists, and otherwise the interval is descended into.
`b = []` cannot arise from `a < b`. -/
def midpointSome : List Nat → List Nat → List Nat
  | _, [] => []
  | a, y :: bs =>
    if a.headD 0 == y then y :: midpointSome a.tail bs
    else if y - a.headD 0 > 1 then [(a.headD 0 + y + 1) / 2]
    else if bs.isEmpty then a.headD 0 :: midpointNone a.tail
    else [y]

/-- Modelled from the spec: `generateBetween(a, b)` of §4.6.  The lower
boundary opens at the empty key, the upper at `none`. -/
def generateBetween (a : List Nat) (b : Option (List Nat)) : List Nat :=
  match b with
  | none => midpointNone a
  | some bl => midpointSome a bl

/-- Sample data for concrete instantiations: a UUID-shaped id. -/
def uuidA : String := "123e4567-e89b-12d3-a456-426614174000"

/-- Second sample id. -/
def uuidB : String := "00000000-0000-0000-0000-000000000001"

/-- Third sample id. -/
def uuidC : String := "00000000-0000-0000-0000-000000000002"

/-- Fourth sample id, belonging to no stored row. -/
def uuidD : String := "00000000-0000-0000-0000-00000000000f"

/-- Sample row of organization 1. -/
def projA : PlanningProject :=
  { id := uuidA, name := "Bike Plan", description := "", type := .BIKE_PLAN,
    status := .DRAFT, organizationId := 1, createdById := some 1,
    config := none, conversationHistory := none, createdAt := 0,
    updatedAt := 10 }

/-- Sample row of organization 2. -/
def projB : PlanningProject :=
  { id := uuidB, name := "Other Org Plan", description := "x",
    type := .CUSTOM, status := .IN_PROGRESS, organizationId := 2,
    createdById := some 2, config := none, conversationHistory := none,
    createdAt := 0, updatedAt := 15 }

/-- Second sample row of organization 1, updated later than `projA`. -/
def projC : PlanningProject :=
  { id := uuidC, name := "Walk Study", description := "", type := .WALKABILITY_STUDY,
    status := .SCOPING, organizationId := 1, createdById := some 1,
    config := none, conversationHistory := none, createdAt := 0,
    updatedAt := 20 }

/-- Sample database with rows of two organizations. -/
def sampleDb : DB := { projects := [projA, projB, projC] }

/-- Sample session of organization 1. -/
def ctxOrg1 : Ctx := { userId := 1, orgId := some 1 }

instance (db : DB) : Decidable db.wf := by
  unfold DB.wf
  exact inferInstance

instance : DecidableRel keyLt :=
  fun a b => List.Lex.decidableRel (· < ·) a b

instance (k : List Nat) : Decidable (noTrailingZero k) :=
  inferInstanceAs (Decidable (k.getLast? ≠ some 0))

/-- Ordering produced by `orderBy: { updatedAt: "desc" }`. -/
def byUpdatedAtDesc (a b : PlanningProject) : Prop :=
  b.updatedAt ≤ a.updatedAt

theorem mem_insertDesc {p q : PlanningProject} {l : List PlanningProject} :
    q ∈ insertDesc p l ↔ q = p ∨ q ∈ l := by
  induction l with
  | nil => simp [insertDesc]
  | cons r rest ih =>
    simp only [insertDesc]
    by_cases h : r.updatedAt < p.updatedAt
    · simp only [if_pos h, List.mem_cons]
    · simp only [if_neg h, List.mem_cons, ih]
      tauto

theorem mem_sortByUpdatedAtDesc {q : PlanningProject}
    {l : List PlanningProject} :
    q ∈ sortByUpdatedAtDesc l ↔ q ∈ l := by
  induction l with
  | nil => simp [sortByUpdatedAtDesc]
  | cons p rest ih =>
    simp only [sortByUpdatedAtDesc, mem_insertDesc, ih, List.mem_cons]

theorem sorted_insertDesc {p : PlanningProject} {l : List PlanningProject}
    (h : List.Sorted byUpdatedAtDesc l) :
    List.Sorted byUpdatedAtDesc (insertDesc p l) := by
  induction l with
  | nil => simp [insertDesc, byUpdatedAtDesc]
  | cons r rest ih =>
    rw [List.sorted_cons] at h
    obtain ⟨hr, hrest⟩ := h
    simp only [insertDesc]
    by_cases hc : r.updatedAt < p.updatedAt
    · rw [if_pos hc, List.sorted_cons]
      refine ⟨?_, ?_⟩
      · intro b hb
        rcases List.mem_cons.mp hb with hb | hb
        · subst hb; exact Nat.le_of_lt hc
        · exact Nat.le_trans (hr b hb) (Nat.le_of_lt hc)
      · rw [List.sorted_cons]; exact ⟨hr, hrest⟩
    · rw [if_neg hc, List.sorted_cons]
      refine ⟨?_, ih hrest⟩
      intro b hb
      rcases mem_insertDesc.mp hb with hb | hb
      · subst hb; exact Nat.le_of_not_lt hc
      · exact hr b hb

theorem sorted_sortByUpdatedAtDesc (l : List PlanningProject) :
    List.Sorted byUpdatedAtDesc (sortByUpdatedAtDesc l) := by
  induction l with
  | nil => simp [sortByUpdatedAtDesc]
  | cons p rest ih => exact sorted_insertDesc ih

theorem DB.findById_mem {db : DB} {id : String} {p : PlanningProject}
    (h : db.findById id = some p) : p ∈ db.projects ∧ p.id = id := by
  refine ⟨List.mem_of_find?_eq_some h, ?_⟩
  have := List.find?_some h
  exact beq_iff_eq.mp this

theorem DB.findById_unique {db : DB} (hwf : db.wf) {id : String}
    {p : PlanningProject} (h : db.findById id = some p) :
    ∀ q ∈ db.projects, q.id = id → q = p := by
  intro q hq hqid
  obtain ⟨hp, hpid⟩ := DB.findById_mem h
  exact List.inj_on_of_nodup_map hwf hq hp (by rw [hqid, hpid])

theorem midpointNone_gt (a : List Nat) : keyLt a (midpointNone a) := by
  induction a with
  | nil => exact List.Lex.nil
  | cons x as ih =>
    by_cases h : 10 - x > 1
    · simp only [midpointNone, if_pos h]
      exact List.Lex.rel (by omega)
    · simp only [midpointNone, if_neg h]
      exact List.Lex.cons ih

theorem midpointSome_bounds :
    ∀ (b a : List Nat), noTrailingZero b → keyLt a b →
      keyLt a (midpointSome a b) ∧ keyLt (midpointSome a b) b := by
  intro b
  induction b with
  | nil =>
    intro a _ hab
    cases hab
  | cons y bs ih =>
    intro a hb0 hab
    cases a with
    | nil =>
      simp only [midpointSome, List.headD_nil, List.tail_nil]
      by_cases h0 : (0 : Nat) == y
      · rw [if_pos h0]
        have hy : y = 0 := (beq_iff_eq.mp h0).symm
        subst hy
        cases bs with
        | nil => exact (hb0 (by decide)).elim
        | cons c cs =>
          have hbs0 : noTrailingZero (c :: cs) := by
            simpa [noTrailingZero, List.getLast?_cons_cons] using hb0
          obtain ⟨_, h2⟩ := ih [] hbs0 List.Lex.nil
          exact ⟨List.Lex.nil, List.Lex.cons h2⟩
      · rw [if_neg h0]
        have hy : 0 < y := Nat.pos_of_ne_zero fun h => h0 (by simp [h])
        by_cases h1 : y - 0 > 1
        · rw [if_pos h1]
          exact ⟨List.Lex.nil, List.Lex.rel (by omega)⟩
        · rw [if_neg h1]
          have hy1 : y = 1 := by omega
          cases bs with
          | nil =>
            rw [if_pos List.isEmpty_nil]
            exact ⟨List.Lex.nil, List.Lex.rel (by omega)⟩
          | cons c cs =>
            rw [if_neg (by simp)]
            exact ⟨List.Lex.nil, List.Lex.cons List.Lex.nil⟩
    | cons z as =>
      simp only [midpointSome, List.headD_cons, List.tail_cons]
      by_cases hzy : z == y
      · rw [if_pos hzy]
        have hz : z = y := beq_iff_eq.mp hzy
        subst hz
        have hab' : List.Lex (· < ·) as bs := by
          cases hab with
          | cons h' => exact h'
          | rel h' => exact absurd h' (lt_irrefl z)
        cases bs with
        | nil => cases hab'
        | cons c cs =>
          have hbs0 : noTrailingZero (c :: cs) := by
            simpa [noTrailingZero, List.getLast?_cons_cons] using hb0
          obtain ⟨h1, h2⟩ := ih as hbs0 hab'
          exact ⟨List.Lex.cons h1, List.Lex.cons h2⟩
      · have hlt : z < y := by
          cases hab with
          | cons h' => exact (hzy (beq_self_eq_true y)).elim
          | rel h' => exact h'
        rw [if_neg hzy]
        by_cases h1 : y - z > 1
        · rw [if_pos h1]
          exact ⟨List.Lex.rel (by omega), List.Lex.rel (by omega)⟩
        · rw [if_neg h1]
          cases bs with
          | nil =>
            rw [if_pos List.isEmpty_nil]
            exact ⟨List.Lex.cons (midpointNone_gt as), List.Lex.rel hlt⟩
          | cons c cs =>
            rw [if_neg (by simp)]
            exact ⟨List.Lex.rel hlt, List.Lex.cons List.Lex.nil⟩

/-- C1: when the target project exists but its `organizationId` differs
from the session's `orgId`, `updatePlanningProject` throws
`"Not authorized to update this project"` and `deletePlanningProject`
throws `"Not authorized to delete this project"`, each before any
database write, so the database (in particular the stored project) is
returned unchanged. -/
theorem crossOrg_authorization_blocks_write
    (uinput : UpdateInput) (dinput : IdRawInput) (ctx : Ctx) (now : Nat)
    (db : DB) (p q : PlanningProject) :
    (db.findById uinput.id = some p → some p.organizationId ≠ ctx.orgId →
      updatePlanningProjectHandler uinput ctx now db =
        (db, .error (.thrown "Not authorized to update this project"))) ∧
    (db.findById dinput.id = some q → some q.organizationId ≠ ctx.orgId →
      deletePlanningProjectHandler dinput ctx db =
        (db, .error (.thrown "Not authorized to delete this project"))) := by
  constructor
  · intro hf hne
    simp only [updatePlanningProjectHandler, hf]
    rw [if_pos (bne_iff_ne.mpr hne)]
  · intro hf hne
    simp only [deletePlanningProjectHandler, hf]
    rw [if_pos (bne_iff_ne.mpr hne)]

theorem crossOrg_authorization_blocks_write_witness :
    updatePlanningProjectHandler
        { id := uuidB, name := some "X", description := none, type := none,
          status := none, config := none, conversationHistory := none }
        ctxOrg1 99 sampleDb =
      (sampleDb, .error (.thrown "Not authorized to update this project")) ∧
    deletePlanningProjectHandler { id := uuidB } ctxOrg1 sampleDb =
      (sampleDb, .error (.thrown "Not authorized to delete this project")) := by
  have h := crossOrg_authorization_blocks_write
    { id := uuidB, name := some "X", description := none, type := none,
      status := none, config := none, conversationHistory := none }
    { id := uuidB } ctxOrg1 99 sampleDb projB projB
  exact ⟨h.1 (by rfl) (by decide), h.2 (by rfl) (by decide)⟩

/-- C2: an input rejected by the mutation's zod schema (for example a
non-UUID `id`, or a `type` outside `PlanningProjectType`) makes the
resolver fail with the validation error while the database is returned
untouched — no database operation happens at all, so the failure is
atomic.  Covers `updatePlanningProject`, `deletePlanningProject`,
`getPlanningProject` and `createPlanningProject`. -/
theorem zod_rejection_is_atomic
    (uraw : UpdateRawInput) (draw graw : IdRawInput) (craw : CreateRawInput)
    (ctx : Ctx) (now : Nat) (newId : String) (db : DB) :
    (UpdatePlanningProjectSchema uraw = none →
      updatePlanningProject uraw ctx now db = (db, .error .zodError)) ∧
    (IdSchema draw = none →
      deletePlanningProject draw ctx db = (db, .error .zodError)) ∧
    (IdSchema graw = none →
      getPlanningProject graw ctx db = .error .zodError) ∧
    (CreatePlanningProjectSchema craw = none →
      createPlanningProject craw ctx newId now db = (db, .error .zodError)) := by
  refine ⟨?_, ?_, ?_, ?_⟩ <;> intro h
  · simp only [updatePlanningProject, h]
  · simp only [deletePlanningProject, h]
  · simp only [getPlanningProject, h]
  · simp only [createPlanningProject, h]

theorem zod_rejection_is_atomic_witness :
    updatePlanningProject
        { id := "not-a-uuid", name := none, description := none,
          type := none, status := none, config := none,
          conversationHistory := none } ctxOrg1 3 sampleDb =
      (sampleDb, .error .zodError) ∧
    deletePlanningProject { id := "not-a-uuid" } ctxOrg1 sampleDb =
      (sampleDb, .error .zodError) ∧
    getPlanningProject { id := "not-a-uuid" } ctxOrg1 sampleDb =
      .error .zodError ∧
    createPlanningProject
        { name := some "P", description := none, type := some "ROAD_PLAN" }
        ctxOrg1 uuidD 3 sampleDb =
      (sampleDb, .error .zodError) := by
  have h := zod_rejection_is_atomic
    { id := "not-a-uuid", name := none, description := none, type := none,
      status := none, config := none, conversationHistory := none }
    { id := "not-a-uuid" } { id := "not-a-uuid" }
    { name := some "P", description := none, type := some "ROAD_PLAN" }
    ctxOrg1 3 uuidD sampleDb
  exact ⟨h.1 (by rfl), h.2.1 (by rfl), h.2.2.1 (by rfl), h.2.2.2 (by rfl)⟩

/-- C3: `getPlanningProjects` with a present organization returns exactly
the stored projects of that organization (subject to the optional status
filter), never a project of another organization; with a missing
`ctx.session.orgId` it throws `"No organization found"`, and
`createPlanningProject` throws the same error under the same missing-org
precondition. -/
theorem orgScoping_getProjects_create
    (input : GetManyInput) (cinput : CreateInput) (u : Int) (newId : String)
    (now : Nat) (db : DB) (o : Int) :
    (getPlanningProjectsHandler input { userId := u, orgId := none } db =
      .error (.thrown "No organization found")) ∧
    (createPlanningProjectHandler cinput { userId := u, orgId := none }
        newId now db =
      (db, .error (.thrown "No organization found"))) ∧
    (o ≠ 0 → ∀ l,
      getPlanningProjectsHandler input { userId := u, orgId := some o } db =
        .ok l →
      ∀ p, p ∈ l ↔ p ∈ db.projects ∧ p.organizationId = o ∧
        statusMatch input.status p.status = true) := by
  refine ⟨?_, ?_, ?_⟩
  · simp [getPlanningProjectsHandler, intTruthy]
  · simp [createPlanningProjectHandler, intTruthy]
  · intro ho l hl p
    have ht : intTruthy (some o) = true := bne_iff_ne.mpr ho
    simp only [getPlanningProjectsHandler, ht, Bool.not_true,
      Bool.false_eq_true, if_false, Except.ok.injEq] at hl
    subst hl
    rw [mem_sortByUpdatedAtDesc, List.mem_filter, Bool.and_eq_true]
    constructor
    · rintro ⟨hmem, horg, hst⟩
      exact ⟨hmem, (beq_iff_eq.mp horg).symm, hst⟩
    · rintro ⟨hmem, horg, hst⟩
      exact ⟨hmem, ⟨beq_iff_eq.mpr horg.symm, hst⟩⟩

theorem orgScoping_getProjects_create_witness :
    getPlanningProjectsHandler { status := none }
        { userId := 1, orgId := none } sampleDb =
      .error (.thrown "No organization found") ∧
    createPlanningProjectHandler
        { name := none, description := none, type := none }
        { userId := 1, orgId := none } uuidD 3 sampleDb =
      (sampleDb, .error (.thrown "No organization found")) ∧
    (projA ∈ [projC, projA] ↔ projA ∈ sampleDb.projects ∧
      projA.organizationId = 1 ∧ statusMatch none projA.status = true) := by
  have h := orgScoping_getProjects_create { status := none }
    { name := none, description := none, type := none } 1 uuidD 3 sampleDb 1
  exact ⟨h.1, h.2.1, h.2.2 (by decide) [projC, projA] (by rfl) projA⟩

/-- C4: a successful `createPlanningProject` stores exactly one new row
whose `name` defaults to `"Untitled Planning Project"` when omitted or
empty, whose `description` defaults to `""`, whose `type` defaults to
`CUSTOM`, and whose `status` is always `DRAFT` — the status is fixed for
every input because `CreatePlanningProjectSchema` (the `CreateInput`
type) has no status field at all. -/
theorem create_defaults_and_status
    (input : CreateInput) (ctx : Ctx) (newId : String) (now : Nat) (db : DB)
    (o : Int) (ho : ctx.orgId = some o) (hoz : o ≠ 0) :
    createPlanningProjectHandler input ctx newId now db =
      ({ projects := db.projects ++
          [newPlanningProject input o ctx.userId newId now] },
       .ok (newPlanningProject input o ctx.userId newId now)) ∧
    (newPlanningProject input o ctx.userId newId now).status =
      PlanningProjectStatus.DRAFT ∧
    ((input.name = none ∨ input.name = some "") →
      (newPlanningProject input o ctx.userId newId now).name =
        "Untitled Planning Project") ∧
    (input.description = none →
      (newPlanningProject input o ctx.userId newId now).description = "") ∧
    (input.type = none →
      (newPlanningProject input o ctx.userId newId now).type =
        PlanningProjectType.CUSTOM) := by
  have ht : intTruthy (some o) = true := bne_iff_ne.mpr hoz
  refine ⟨?_, rfl, ?_, ?_, ?_⟩
  · simp only [createPlanningProjectHandler, ho, ht, Bool.not_true,
      Bool.false_eq_true, if_false, Option.getD_some]
  · rintro (h | h) <;> simp [newPlanningProject, jsOrString, h]
  · intro h; simp [newPlanningProject, jsOrString, h]
  · intro h; simp [newPlanningProject, h]

theorem create_defaults_and_status_witness :
    createPlanningProjectHandler
        { name := none, description := none, type := none } ctxOrg1 uuidD 7
        { projects := [] } =
      ({ projects := [] ++
          [newPlanningProject { name := none, description := none, type := none } 1 1 uuidD 7] },
       .ok (newPlanningProject { name := none, description := none, type := none } 1 1 uuidD 7)) ∧
    (newPlanningProject { name := none, description := none, type := none }
        1 1 uuidD 7).status = PlanningProjectStatus.DRAFT ∧
    (((none : Option String) = none ∨ (none : Option String) = some "") →
      (newPlanningProject { name := none, description := none, type := none }
        1 1 uuidD 7).name = "Untitled Planning Project") ∧
    ((none : Option String) = none →
      (newPlanningProject { name := none, description := none, type := none }
        1 1 uuidD 7).description = "") ∧
    ((none : Option PlanningProjectType) = none →
      (newPlanningProject { name := none, description := none, type := none }
        1 1 uuidD 7).type = PlanningProjectType.CUSTOM) :=
  create_defaults_and_status
    { name := none, description := none, type := none } ctxOrg1 uuidD 7
    { projects := [] } 1 rfl (by decide)

/-- C5: with a present session organization, `getPlanningProject` throws
the identical `"Planning project not found"` both when no row carries the
requested id and when the row exists but belongs to another organization,
so the query does not reveal which case occurred; `deletePlanningProject`
distinguishes the same two cases with `"Planning project not found"`
versus `"Not authorized to delete this project"`. -/
theorem get_hides_foreign_projects
    (input : IdRawInput) (u o : Int) (db : DB) (p : PlanningProject) :
    ((∀ q ∈ db.projects, q.id ≠ input.id) →
      getPlanningProjectHandler input { userId := u, orgId := some o } db =
        .error (.thrown "Planning project not found") ∧
      deletePlanningProjectHandler input { userId := u, orgId := some o }
          db =
        (db, .error (.thrown "Planning project not found"))) ∧
    (db.wf → db.findById input.id = some p → p.organizationId ≠ o →
      getPlanningProjectHandler input { userId := u, orgId := some o } db =
        .error (.thrown "Planning project not found") ∧
      deletePlanningProjectHandler input { userId := u, orgId := some o }
          db =
        (db, .error (.thrown "Not authorized to delete this project"))) := by
  constructor
  · intro hnone
    have hg : db.projects.find? (fun q =>
        q.id == input.id && optIntFilter (some o) q.organizationId) =
        none := by
      rw [List.find?_eq_none]
      intro q hq hc
      rw [Bool.and_eq_true] at hc
      exact hnone q hq (beq_iff_eq.mp hc.1)
    have hd : db.findById input.id = none := by
      rw [DB.findById, List.find?_eq_none]
      intro q hq hc
      exact hnone q hq (beq_iff_eq.mp hc)
    constructor
    · simp only [getPlanningProjectHandler, hg]
    · simp only [deletePlanningProjectHandler, hd]
  · intro hwf hf hne
    constructor
    · have hg : db.projects.find? (fun q =>
          q.id == input.id && optIntFilter (some o) q.organizationId) =
          none := by
        rw [List.find?_eq_none]
        intro q hq hc
        rw [Bool.and_eq_true] at hc
        obtain ⟨hc1, hc2⟩ := hc
        have hq_eq : q = p :=
          DB.findById_unique hwf hf q hq (beq_iff_eq.mp hc1)
        subst hq_eq
        simp only [optIntFilter] at hc2
        exact hne (beq_iff_eq.mp hc2).symm
      simp only [getPlanningProjectHandler, hg]
    · simp only [deletePlanningProjectHandler, hf]
      rw [if_pos (bne_iff_ne.mpr fun h => hne (Option.some.inj h))]

theorem get_hides_foreign_projects_witness :
    (getPlanningProjectHandler { id := uuidD }
        { userId := 1, orgId := some 1 } sampleDb =
        .error (.thrown "Planning project not found") ∧
      deletePlanningProjectHandler { id := uuidD }
        { userId := 1, orgId := some 1 } sampleDb =
        (sampleDb, .error (.thrown "Planning project not found"))) ∧
    (getPlanningProjectHandler { id := uuidB }
        { userId := 1, orgId := some 1 } sampleDb =
        .error (.thrown "Planning project not found") ∧
      deletePlanningProjectHandler { id := uuidB }
        { userId := 1, orgId := some 1 } sampleDb =
        (sampleDb, .error (.thrown "Not authorized to delete this project"))) :=
  ⟨(get_hides_foreign_projects { id := uuidD } 1 1 sampleDb projB).1
      (by decide),
   (get_hides_foreign_projects { id := uuidB } 1 1 sampleDb projB).2
      (by decide) (by rfl) (by decide)⟩

/-- C6: a successful `updatePlanningProject` performs one write that
replaces exactly the row with the given id by `applyUpdate`, and in that
row each of `name`, `description`, `type`, `status`, `config`,
`conversationHistory` keeps its prior value when absent from the input
while every provided field takes the provided value — all of them in the
same single written row. -/
theorem update_applies_exactly_given_fields
    (input : UpdateInput) (ctx : Ctx) (now : Nat) (db : DB)
    (p : PlanningProject) (hf : db.findById input.id = some p)
    (horg : ctx.orgId = some p.organizationId) :
    updatePlanningProjectHandler input ctx now db =
      ({ projects := db.projects.map fun q =>
          if q.id == input.id then applyUpdate q input now else q },
       .ok (applyUpdate p input now)) ∧
    (input.name = none → (applyUpdate p input now).name = p.name) ∧
    (∀ v, input.name = some v → (applyUpdate p input now).name = v) ∧
    (input.description = none →
      (applyUpdate p input now).description = p.description) ∧
    (∀ v, input.description = some v →
      (applyUpdate p input now).description = v) ∧
    (input.type = none → (applyUpdate p input now).type = p.type) ∧
    (∀ v, input.type = some v → (applyUpdate p input now).type = v) ∧
    (input.status = none → (applyUpdate p input now).status = p.status) ∧
    (∀ v, input.status = some v → (applyUpdate p input now).status = v) ∧
    (input.config = none → (applyUpdate p input now).config = p.config) ∧
    (∀ v, input.config = some v →
      (applyUpdate p input now).config = some v) ∧
    (input.conversationHistory = none →
      (applyUpdate p input now).conversationHistory =
        p.conversationHistory) ∧
    (∀ v, input.conversationHistory = some v →
      (applyUpdate p input now).conversationHistory = some v) := by
  refine ⟨?_, ?_, ?_, ?_, ?_, ?_, ?_, ?_, ?_, ?_, ?_, ?_, ?_⟩
  · simp only [updatePlanningProjectHandler, hf]
    rw [if_neg (by simp [horg])]
  · intro h; simp [applyUpdate, h]
  · intro v h; simp [applyUpdate, h]
  · intro h; simp [applyUpdate, h]
  · intro v h; simp [applyUpdate, h]
  · intro h; simp [applyUpdate, h]
  · intro v h; simp [applyUpdate, h]
  · intro h; simp [applyUpdate, h]
  · intro v h; simp [applyUpdate, h]
  · intro h; simp [applyUpdate, h]
  · intro v h; simp [applyUpdate, h]
  · intro h; simp [applyUpdate, h]
  · intro v h; simp [applyUpdate, h]

theorem update_applies_exactly_given_fields_witness :
    updatePlanningProjectHandler
        { id := uuidA, name := some "Renamed", description := none,
          type := none, status := some .IN_PROGRESS, config := none,
          conversationHistory := none } ctxOrg1 42 sampleDb =
      ({ projects := sampleDb.projects.map fun q =>
          if q.id == uuidA then
            applyUpdate q
              { id := uuidA, name := some "Renamed", description := none,
                type := none, status := some .IN_PROGRESS, config := none,
                conversationHistory := none } 42
          else q },
       .ok (applyUpdate projA
          { id := uuidA, name := some "Renamed", description := none,
            type := none, status := some .IN_PROGRESS, config := none,
            conversationHistory := none } 42)) ∧
    (applyUpdate projA
        { id := uuidA, name := some "Renamed", description := none,
          type := none, status := some .IN_PROGRESS, config := none,
          conversationHistory := none } 42).name = "Renamed" ∧
    (applyUpdate projA
        { id := uuidA, name := some "Renamed", description := none,
          type := none, status := some .IN_PROGRESS, config := none,
          conversationHistory := none } 42).status =
      PlanningProjectStatus.IN_PROGRESS ∧
    (applyUpdate projA
        { id := uuidA, name := some "Renamed", description := none,
          type := none, status := some .IN_PROGRESS, config := none,
          conversationHistory := none } 42).description =
      projA.description := by
  have h := update_applies_exactly_given_fields
    { id := uuidA, name := some "Renamed", description := none,
      type := none, status := some .IN_PROGRESS, config := none,
      conversationHistory := none } ctxOrg1 42 sampleDb projA
    (by rfl) (by rfl)
  exact ⟨h.1, h.2.2.1 "Renamed" rfl, h.2.2.2.2.2.2.2.2.1 .IN_PROGRESS rfl,
    h.2.2.2.1 rfl⟩

/-- C7: every successful `getPlanningProjects` result is sorted by
`updatedAt` descending; when the optional `status` argument is supplied
every returned project has exactly that status, and when it is omitted
membership is determined by the organization filter alone, so projects of
all statuses are returned. -/
theorem list_sorted_and_status_filtered
    (input : GetManyInput) (ctx : Ctx) (db : DB)
    (l : List PlanningProject)
    (h : getPlanningProjectsHandler input ctx db = .ok l) :
    List.Sorted byUpdatedAtDesc l ∧
    (∀ s, input.status = some s → ∀ p ∈ l, p.status = s) ∧
    (input.status = none → ∀ p, p ∈ l ↔ p ∈ db.projects ∧
      optIntFilter ctx.orgId p.organizationId = true) := by
  by_cases ht : intTruthy ctx.orgId = true
  case neg =>
    rw [Bool.not_eq_true] at ht
    simp [getPlanningProjectsHandler, ht] at h
  case pos =>
    simp only [getPlanningProjectsHandler, ht, Bool.not_true,
      Bool.false_eq_true, if_false, Except.ok.injEq] at h
    subst h
    refine ⟨sorted_sortByUpdatedAtDesc _, ?_, ?_⟩
    · intro s hs p hp
      rw [mem_sortByUpdatedAtDesc, List.mem_filter, Bool.and_eq_true] at hp
      have hst := hp.2.2
      rw [hs] at hst
      simp only [statusMatch] at hst
      exact (beq_iff_eq.mp hst).symm
    · intro hs p
      rw [mem_sortByUpdatedAtDesc, List.mem_filter, Bool.and_eq_true, hs]
      simp [statusMatch]

theorem list_sorted_and_status_filtered_witness :
    List.Sorted byUpdatedAtDesc [projC, projA] ∧
    (∀ s, (none : Option PlanningProjectStatus) = some s →
      ∀ p ∈ [projC, projA], p.status = s) ∧
    ((none : Option PlanningProjectStatus) = none →
      ∀ p, p ∈ [projC, projA] ↔ p ∈ sampleDb.projects ∧
        optIntFilter ctxOrg1.orgId p.organizationId = true) :=
  list_sorted_and_status_filtered { status := none } ctxOrg1 sampleDb
    [projC, projA] (by rfl)

/-- C8: `handleDelete` of `planning_project_list.tsx` never lets a
failure escape: every input yields a normal (`.ok`) outcome; a confirmed
delete whose mutation fails for any reason produces exactly the
`"Failed to delete planning project"` failure toast; a confirmed delete
whose mutation and list invalidation succeed refreshes the list and shows
the `"Planning project deleted"` success toast. -/
theorem handleDelete_toasts
    (confirmed : Bool) (dr rr : Except Err Unit) :
    (∃ eff, handleDelete confirmed dr rr = .ok eff) ∧
    (∀ e, dr = .error e → handleDelete true dr rr =
      .ok { toasts := [.failure "Failed to delete planning project"],
            listRefreshed := false }) ∧
    (handleDelete true (.ok ()) (.ok ()) =
      .ok { toasts := [.success "Planning project deleted"],
            listRefreshed := true }) := by
  refine ⟨?_, ?_, rfl⟩
  · cases confirmed <;> rcases dr with e | u <;> rcases rr with e' | u' <;>
      exact ⟨_, rfl⟩
  · intro e he
    subst he
    rfl

theorem handleDelete_toasts_witness :
    (∃ eff, handleDelete true (.error (.thrown "boom")) (.ok ()) =
      .ok eff) ∧
    handleDelete true (.error (.thrown "boom")) (.ok ()) =
      .ok { toasts := [.failure "Failed to delete planning project"],
            listRefreshed := false } := by
  have h := handleDelete_toasts true (.error (.thrown "boom")) (.ok ())
  exact ⟨h.1, h.2.1 (.thrown "boom") rfl⟩

/-- C9: modelled from the spec — at the push endpoint, a mutation whose
id is already recorded as applied for the client is reported
`alreadyApplied` with the server state (document, version, bookkeeping)
unchanged, and a batch of any number of retransmissions of that mutation
still leaves the state unchanged, reporting `alreadyApplied` every time:
it is never applied a second time. -/
theorem push_idempotent (σ : Type) (applyFn : σ → SrvMutation → σ)
    (st : PushServer σ) (c : Nat) (m : SrvMutation) (n : Nat)
    (h : (c, m.id) ∈ st.applied) :
    processMutation applyFn st c m = (st, .alreadyApplied) ∧
    processBatch applyFn st c (List.replicate n m) =
      (st, List.replicate n PushResult.alreadyApplied) := by
  have h1 : processMutation applyFn st c m = (st, .alreadyApplied) := by
    simp [processMutation, h]
  refine ⟨h1, ?_⟩
  induction n with
  | zero => simp [processBatch]
  | succ k ih =>
    simp only [List.replicate_succ, processBatch, h1, ih]

theorem push_idempotent_witness :
    processMutation (fun (d : Nat) _ => d + 1)
        { doc := 0, version := 3, applied := [(1, 7)] } 1
        { id := 7, name := "createFeature", args := "" } =
      ({ doc := 0, version := 3, applied := [(1, 7)] }, .alreadyApplied) ∧
    processBatch (fun (d : Nat) _ => d + 1)
        { doc := 0, version := 3, applied := [(1, 7)] } 1
        (List.replicate 3 { id := 7, name := "createFeature", args := "" }) =
      ({ doc := 0, version := 3, applied := [(1, 7)] },
       List.replicate 3 PushResult.alreadyApplied) :=
  push_idempotent Nat (fun d _ => d + 1)
    { doc := 0, version := 3, applied := [(1, 7)] } 1
    { id := 7, name := "createFeature", args := "" } 3 (by decide)

/-- C10: modelled from the spec — for sibling order keys with `a < b`
under string (lexicographic) comparison, or with the upper boundary open,
the fractional index sequencer's `generateBetween(a, b)` returns a key
`k` with `a < k` and `k < b`, so a midpoint insertion never collides with
either adjacent sibling key. -/
theorem generateBetween_ordering (a : List Nat) (b : Option (List Nat))
    (hb : ∀ bl, b = some bl → noTrailingZero bl ∧ keyLt a bl) :
    keyLt a (generateBetween a b) ∧
    ∀ bl, b = some bl → keyLt (generateBetween a b) bl := by
  cases b with
  | none =>
    refine ⟨midpointNone_gt a, ?_⟩
    intro bl hcontr
    cases hcontr
  | some bl =>
    obtain ⟨h0, hab⟩ := hb bl rfl
    obtain ⟨h1, h2⟩ := midpointSome_bounds bl a h0 hab
    refine ⟨h1, ?_⟩
    intro bl' heq
    cases heq
    exact h2

theorem generateBetween_ordering_witness :
    keyLt [5] (generateBetween [5] (some [6])) ∧
    ∀ bl, (some [6] : Option (List Nat)) = some bl →
      keyLt (generateBetween [5] (some [6])) bl :=
  generateBetween_ordering [5] (some [6])
    (fun bl h => by cases h; exact ⟨by decide, by decide⟩)

end UrbanTool
